import Mathlib

set_option autoImplicit false

/-!
Verification of the musicdl ingestion-and-orchestration pipeline.

Python strings are embedded as `List Char`; Python `dict`s over string keys as
association lists; fallible Python code as `Except`; the external yt-dlp
collaborator as explicit outcome oracles.  Machine behaviour that the source
relies on (dataclass hashability, `str.strip`, `re.search` on the five fixed
URL patterns, `bytes.decode(..., errors="replace")`) is modelled explicitly and
documented at the corresponding definition.
-/

namespace MusicDL

/-! ## Python string primitives (over `List Char`) -/

/-- The whitespace characters stripped by Python's `str.strip()` (ASCII part;
Python additionally strips some Unicode spaces, which do not occur in any input
considered here). -/
def isPyWs (c : Char) : Bool :=
  c = ' ' || c = '\t' || c = '\n' || c = '\r' || c = '\x0b' || c = '\x0c'

/-- Python `str.strip()`. -/
def pyStrip (s : List Char) : List Char :=
  ((s.dropWhile isPyWs).reverse.dropWhile isPyWs).reverse

/-- Python `str.lower()` on ASCII letters (the only case-bearing characters in
the fixed pattern/synonym vocabulary). -/
def pyLower (c : Char) : Char :=
  if 'A' ≤ c ∧ c ≤ 'Z' then Char.ofNat (c.toNat + 32) else c

/-- `needle.isPrefixOf hay` written out, to keep the development self-contained. -/
def listStarts : List Char → List Char → Bool
  | [], _ => true
  | _ :: _, [] => false
  | n :: ns, h :: hs => n == h && listStarts ns hs

/-- Python `needle in hay` (substring containment). -/
def containsSub (needle : List Char) : List Char → Bool
  | [] => needle.isEmpty
  | c :: rest => listStarts needle (c :: rest) || containsSub needle rest

/-- Python `hay.split(sep, 1)`: split at the first occurrence of `sep`.
Returns `none` when `sep` does not occur (Python then returns the whole
string as a single part). -/
def splitOnceAux (sep : List Char) : List Char → Option (List Char × List Char)
  | [] => none
  | c :: rest =>
    if listStarts sep (c :: rest) then some ([], (c :: rest).drop sep.length)
    else
      match splitOnceAux sep rest with
      | some (pre, post) => some (c :: pre, post)
      | none => none

/-- Python `s.split(c)` (split on every occurrence of a single character;
`"".split(c) = [""]`). -/
def splitOnChar (sep : Char) : List Char → List (List Char)
  | [] => [[]]
  | c :: rest =>
    if c = sep then [] :: splitOnChar sep rest
    else
      match splitOnChar sep rest with
      | l :: ls => (c :: l) :: ls
      | [] => [[c]]

/-- Equality on `Except` is decidable when it is on both components (used to
evaluate the embedded fallible functions on concrete inputs). -/
instance instDecEqExcept {ε α : Type} [DecidableEq ε] [DecidableEq α] :
    DecidableEq (Except ε α)
  | .error x, .error y =>
    if h : x = y then .isTrue (by rw [h])
    else .isFalse (fun hc => h (Except.error.inj hc))
  | .error _, .ok _ => .isFalse (fun hc => Except.noConfusion hc)
  | .ok _, .error _ => .isFalse (fun hc => Except.noConfusion hc)
  | .ok x, .ok y =>
    if h : x = y then .isTrue (by rw [h])
    else .isFalse (fun hc => h (Except.ok.inj hc))

/-! ## csv_parser.py: vocabulary and column detection -/

/-- `ARTIST_SYNONYMS` (csv_parser.py lines 13-30).  The Python value is a
`set`; it is only ever used for membership tests and for summing a
per-element contribution, so the iteration order is irrelevant and a list
is a faithful embedding. -/
def ARTIST_SYNONYMS : List (List Char) :=
  ["artist".data, "artists".data, "primary artist".data, "main artist".data,
   "lead artist".data, "performer".data, "band".data, "singer".data,
   "vocalist".data, "composer".data, "author".data, "musician".data,
   "artist name".data, "album artist".data, "primary".data, "group".data]

/-- `TRACK_SYNONYMS` (csv_parser.py lines 33-45). -/
def TRACK_SYNONYMS : List (List Char) :=
  ["track".data, "track name".data, "song".data, "song name".data,
   "title".data, "recording".data, "work".data, "composition".data,
   "piece".data, "single".data, "name".data]

/-- `SEPARATORS` (csv_parser.py line 48), in source order: space-hyphen-space,
space-em-dash-space, space-en-dash-space, hyphen, em dash, en dash, colon,
pipe, middle dot. -/
def SEPARATORS : List (List Char) :=
  [" - ".data, " — ".data, " – ".data, "-".data, "—".data, "–".data,
   ":".data, "|".data, "·".data]

/-- Word characters for the regex `\b` boundary (`[a-zA-Z0-9_]`). -/
def isWordChar (c : Char) : Bool :=
  ('a' ≤ c ∧ c ≤ 'z') || ('A' ≤ c ∧ c ≤ 'Z') || ('0' ≤ c ∧ c ≤ '9') || c = '_'

/-- Whether `word` occurs at the head of `hay` with a word boundary after it. -/
def wordAt (word hay : List Char) : Bool :=
  listStarts word hay &&
    (match hay.drop word.length with
     | [] => true
     | c :: _ => !isWordChar c)

/-- Scan for `re.search(r"\b<word>\b", hay)`: some occurrence of `word` whose
preceding character (if any) and following character (if any) are not word
characters.  `prev` is the character immediately before the current suffix. -/
def searchWordAux (word : List Char) (prev : Option Char) : List Char → Bool
  | [] => false
  | c :: rest =>
    ((match prev with
      | none => true
      | some p => !isWordChar p) && wordAt word (c :: rest)) ||
      searchWordAux word (some c) rest

/-- `re.search(r"\b<word>\b", hay)` for a non-empty all-word-character `word`. -/
def searchWord (word hay : List Char) : Bool :=
  searchWordAux word none hay

/-- `score_header` (csv_parser.py lines 184-203): +10 for an exact
case-insensitive match against the synonym set, `max 1 (len // 3)` for every
synonym occurring as a substring, +3 for a word-boundary occurrence of
"artist" and +3 for a word-boundary occurrence of "title"/"track"/"song"
(both bonuses are computed in the same function regardless of which synonym
set is being scored). -/
def score_header (name : List Char) (synonyms : List (List Char)) : Nat :=
  let name_lower := (pyStrip name).map pyLower
  let exact := if synonyms.contains name_lower then 10 else 0
  let substr := synonyms.foldl
    (fun acc syn => if containsSub syn name_lower then acc + max 1 (syn.length / 3) else acc) 0
  let bonus1 := if searchWord "artist".data name_lower then 3 else 0
  let bonus2 :=
    if searchWord "title".data name_lower || searchWord "track".data name_lower ||
        searchWord "song".data name_lower then 3 else 0
  exact + substr + bonus1 + bonus2

/-- A preview row: the Python `Dict[str, str]` mapping header name to cell
value.  `DictReader` rows have one entry per (unique) header, so an
association list with first-match lookup is a faithful embedding. -/
abbrev PyRow := List (List Char × List Char)

/-- Python `row.get(header, "")`. -/
def rowGet (row : PyRow) (h : List Char) : List Char :=
  match row.find? (fun p => p.1 == h) with
  | some p => p.2
  | none => []

/-- `any(sep in value for sep in SEPARATORS)` for one row's cell under `h`. -/
def rowHasSep (row : PyRow) (h : List Char) : Bool :=
  SEPARATORS.any (fun sep => containsSub sep (rowGet row h))

/-- Number of preview rows whose value under `h` contains a separator
(the `separator_count` accumulated in `_detect_single_column`). -/
def sepCount (rows : List PyRow) (h : List Char) : Nat :=
  rows.countP (fun row => rowHasSep row h)

/-- `_detect_single_column` (csv_parser.py lines 260-283).  The Python guard is
`separator_count > best_separator_count and separator_count >= len(rows) * 0.3`.
The second conjunct is a float comparison; for every integer count `c` and row
count `n` it coincides with the exact comparison `10 * c ≥ 3 * n`: the float
product `n * 0.3` differs from the rational `3n/10` by less than `2⁻⁴⁵` for any
realistic `n`, while an integer `c` is either exactly `3n/10` (representable,
and rounding a smaller product to nearest never exceeds a representable bound)
or at least `1/10` away from it.  The exact form is used here. -/
def detect_single_column (headers : List (List Char)) (rows : List PyRow) :
    Option (List Char) :=
  (headers.foldl
    (fun acc h =>
      let c := sepCount rows h
      if c > acc.2 ∧ 10 * c ≥ 3 * rows.length then (some h, c) else acc)
    ((none : Option (List Char)), 0)).1

/-- The tail of `_detect_columns` after the single-column attempt
(csv_parser.py lines 237-258): if the same header won both roles, look for the
best track score among the other headers (`continue` on the artist column);
Python keeps it only when `second_best_track` is truthy (non-`None` and
non-empty) and its score is strictly positive, otherwise it drops the artist
role and keeps the (shared) track column. -/
def sameColumnFixup (headers : List (List Char))
    (bestA bestT : Option (List Char) × Int) (trackScore : List Char → Int) :
    Option (List Char) × Option (List Char) × Option (List Char) :=
  if bestA.1 = bestT.1 then
    let second := headers.foldl
      (fun acc h =>
        if some h = bestA.1 then acc
        else if trackScore h > acc.2 then (some h, trackScore h) else acc)
      ((none : Option (List Char)), (-1 : Int))
    match second with
    | (some s, sc) => if s ≠ [] ∧ sc > 0 then (bestA.1, some s, none) else (none, bestT.1, none)
    | (none, _) => (none, bestT.1, none)
  else (bestA.1, bestT.1, none)

/-- The best-scoring header: Python's loop with `best = None`, `best_score = -1`
and a strict `>` update (first-seen header wins ties). -/
def bestBy (headers : List (List Char)) (score : List Char → Int) :
    Option (List Char) × Int :=
  headers.foldl
    (fun acc h => if score h > acc.2 then (some h, score h) else acc)
    ((none : Option (List Char)), (-1 : Int))

/-- `_detect_columns` (csv_parser.py lines 176-258). -/
def detect_columns (headers : List (List Char)) (rows : List PyRow) :
    Option (List Char) × Option (List Char) × Option (List Char) :=
  let artistScore : List Char → Int := fun h => (score_header h ARTIST_SYNONYMS : Int)
  let trackScore : List Char → Int := fun h => (score_header h TRACK_SYNONYMS : Int)
  let bestA := bestBy headers artistScore
  let bestT := bestBy headers trackScore
  if bestA.2 ≤ 2 ∨ bestT.2 ≤ 2 then
    match detect_single_column headers rows with
    | some c => (none, none, some c)
    | none => sameColumnFixup headers bestA bestT trackScore
  else sameColumnFixup headers bestA bestT trackScore

/-! ## csv_parser.py: the single-column splitter -/

/-- The separator loop of `parse_artist_title_from_single` (csv_parser.py
lines 290-294): for each separator in order, if it occurs in the value, split
at its first occurrence, strip both parts, and return them when both are
non-empty; otherwise move on to the next separator. -/
def try_separators : List (List Char) → List Char → Option (List Char × List Char)
  | [], _ => none
  | sep :: rest, value =>
    if containsSub sep value then
      match splitOnceAux sep value with
      | some (p0, p1) =>
        if pyStrip p0 ≠ [] ∧ pyStrip p1 ≠ [] then some (pyStrip p0, pyStrip p1)
        else try_separators rest value
      | none => try_separators rest value
    else try_separators rest value

/-- `re.match(r'^(.*?)[""](.+?)[""]$', value)` (csv_parser.py line 297; the
character classes contain the ASCII double quote twice).  With the lazy
groups and the `$` anchor this matches exactly when `value` ends in `"` and
some earlier `"` leaves at least one character before the final quote; group 1
is everything before the first such quote, group 2 everything strictly between
it and the final quote. -/
def quotedMatch (v : List Char) : Option (List Char × List Char) :=
  match v.getLast? with
  | some '"' =>
    let body := v.dropLast
    match body.findIdx? (fun c => c = '"') with
    | some i => if i + 1 < body.length then some (body.take i, body.drop (i + 1)) else none
    | none => none
  | _ => none

/-- `parse_artist_title_from_single` (csv_parser.py lines 285-305). -/
def parse_artist_title_from_single (value : List Char) : List Char × List Char :=
  match try_separators SEPARATORS (pyStrip value) with
  | some p => p
  | none =>
    match quotedMatch (pyStrip value) with
    | some (g1, g2) =>
      if pyStrip g1 ≠ [] ∧ pyStrip g2 ≠ [] then (pyStrip g1, pyStrip g2)
      else ([], pyStrip value)
    | none => ([], pyStrip value)

/-! ## url_processor.py: URL patterns, extraction and normalisation -/

/-- The identifier character class `[a-zA-Z0-9_-]` of the URL patterns. -/
def idChar (c : Char) : Bool :=
  ('a' ≤ c ∧ c ≤ 'z') || ('A' ≤ c ∧ c ≤ 'Z') || ('0' ≤ c ∧ c ≤ '9') || c = '_' || c = '-'

/-- Case-insensitive prefix test: `core` (given in lower case) against the
head of `hay`, comparing `hay`'s characters lowered. -/
def ciStarts : List Char → List Char → Bool
  | [], _ => true
  | _ :: _, [] => false
  | n :: ns, h :: hs => pyLower h == n && ciStarts ns hs

/-- The capture of one `YOUTUBE_PATTERNS` regex under `re.search` with
`re.IGNORECASE` (url_processor.py lines 15-24).  Each pattern is
`(?:https?://)?(?:www\.)?<core>([a-zA-Z0-9_-]+)` (pattern 5 has `(?:m\.)?` in
place of `(?:www\.)?`); the scheme and host prefixes are optional, so they
affect neither whether a match exists nor the captured group.  The pattern
therefore matches iff some occurrence of `core` (case-insensitively) is
followed by at least one identifier character, and `group(1)` is the maximal
identifier run after the first such occurrence. -/
def captureAfterCore (core : List Char) : List Char → Option (List Char)
  | [] => none
  | c :: rest =>
    if ciStarts core (c :: rest) then
      match (c :: rest).drop core.length with
      | [] => captureAfterCore core rest
      | d :: ds => if idChar d then some (List.takeWhile idChar (d :: ds))
                   else captureAfterCore core rest
    else captureAfterCore core rest

/-- The mandatory core of the watch pattern (and of the mobile watch
pattern, whose `(?:m\.)?` prefix is optional). -/
def WATCH_CORE : List Char := "youtube.com/watch?v=".data

/-- The mandatory cores of the five `YOUTUBE_PATTERNS`, in source order:
watch, short link, playlist, embed, mobile watch. -/
def PATTERN_CORES : List (List Char) :=
  [WATCH_CORE, "youtu.be/".data,
   "youtube.com/playlist?list=".data, "youtube.com/embed/".data,
   WATCH_CORE]

/-- `extract_video_id` (url_processor.py lines 49-58): strip, then return the
first pattern's capture. -/
def extract_video_id (url : List Char) : Option (List Char) :=
  let url := pyStrip url
  PATTERN_CORES.findSome? (fun core => captureAfterCore core url)

/-- `is_valid_youtube_url` (url_processor.py lines 37-47): strip, reject the
empty string, otherwise test each pattern (a pattern searches successfully
iff its mandatory capture group can match). -/
def is_valid_youtube_url (url : List Char) : Bool :=
  let url := pyStrip url
  if url = [] then false
  else PATTERN_CORES.any (fun core => (captureAfterCore core url).isSome)

/-- The canonical prefix `https://www.youtube.com/watch?v=` used by
`normalize_youtube_url`. -/
def WATCH_PRE : List Char := "https://www.youtube.com/watch?v=".data

/-- `normalize_youtube_url` (url_processor.py lines 60-66). -/
def normalize_youtube_url (url : List Char) : Option (List Char) :=
  match extract_video_id url with
  | none => none
  | some vid => some (WATCH_PRE ++ vid)

/-! ## models.py: data model -/

/-- `TrackStatus` (models.py lines 14-23). -/
inductive TrackStatus
  | pending
  | searching
  | found
  | downloading
  | done
  | error
  | skipped
deriving DecidableEq

/-- `TrackItem` (models.py lines 91-104).  `duration` is a Python
`Optional[float]`; its value is opaque to every claim considered here, so it
is carried as an integer token.  Note that `TrackItem` is a plain mutable
`@dataclass` with the default `eq=True`, `frozen=False`. -/
structure TrackItem where
  artist : List Char
  title : List Char
  query : List Char
  target_stub : List Char
  status : TrackStatus := .pending
  url : Option (List Char) := none
  result_path : Option (List Char) := none
  error : Option (List Char) := none
  duration : Option Int := none
  filesize : Option Nat := none
deriving DecidableEq

/-- `SearchResult` (models.py lines 128-139). -/
structure SearchResult where
  title : List Char
  url : List Char
  duration : Option Int := none
  uploader : Option (List Char) := none
  view_count : Option Nat := none
  like_count : Option Nat := none
  upload_date : Option (List Char) := none
deriving DecidableEq

/-- `DownloadResult` (models.py lines 142-152). -/
structure DownloadResult where
  success : Bool
  file_path : Option (List Char) := none
  error_message : Option (List Char) := none
  duration : Option Int := none
  filesize : Option Nat := none
  format_info : Option (List (List Char × List Char)) := none
deriving DecidableEq

/-! ## url_processor.py: track creation and URL-list loading -/

/-- Python's `a or b` for strings under an optional left operand: `None` and
the empty string are falsy. -/
def pyOrStr (a : Option (List Char)) (b : List Char) : List Char :=
  match a with
  | some s => if s = [] then b else s
  | none => b

/-- `_extract_title_from_url` (url_processor.py lines 93-108): `urlparse` the
URL, take the query string (after the first `?`, before any `#`), and return
the first non-empty `title=` parameter (as `parse_qs` collects; blank values
are dropped by `parse_qs`'s default).  Percent/plus decoding is omitted: the
call sites only pass canonical watch URLs, which contain neither. -/
def extract_title_from_url (url : List Char) : Option (List Char) :=
  let query :=
    match splitOnceAux ['?'] url with
    | none => []
    | some (_, q) =>
      match splitOnceAux ['#'] q with
      | some (a, _) => a
      | none => q
  (splitOnChar '&' query).findSome? (fun p =>
    match splitOnceAux ['='] p with
    | some (k, v) => if k = "title".data ∧ v ≠ [] then some v else none
    | none => none)

/-- `create_track_from_url` (url_processor.py lines 68-91). -/
def create_track_from_url (url : List Char) (title_override : Option (List Char)) :
    Option TrackItem :=
  if is_valid_youtube_url url = false then none
  else
    match normalize_youtube_url url with
    | none => none
    | some nurl =>
      let title := pyOrStr title_override
        (pyOrStr (extract_title_from_url url) ("YouTube Video".data))
      some { artist := [], title := title, query := title, target_stub := title,
             url := some nurl }

/-- The line loop of `load_urls_from_text_file` (url_processor.py lines
137-170): lines are numbered from 1; a line is ignored when it strips to the
empty string or starts with `#` or `//`; an invalid or non-normalisable line
is skipped (with a logged warning); a line whose canonical form was already
seen in this batch is skipped; otherwise the canonical URL is recorded as seen
and a `TrackItem` is built from it, its `query` prefixed with the line
number. -/
def processUrlLines : Nat → List (List Char) → List (List Char) → List TrackItem
  | _, _, [] => []
  | n, seen, line :: rest =>
    let l := pyStrip line
    if l = [] || listStarts "#".data l || listStarts "//".data l then
      processUrlLines (n + 1) seen rest
    else if is_valid_youtube_url l = false then
      processUrlLines (n + 1) seen rest
    else
      match normalize_youtube_url l with
      | none => processUrlLines (n + 1) seen rest
      | some nurl =>
        if seen.contains nurl then processUrlLines (n + 1) seen rest
        else
          match create_track_from_url nurl none with
          | some tr =>
            { tr with query := "Line ".data ++ (Nat.repr n).data ++ ": ".data ++ tr.title } ::
              processUrlLines (n + 1) (nurl :: seen) rest
          | none => processUrlLines (n + 1) (nurl :: seen) rest

/-- `load_urls_from_text_file` (url_processor.py lines 110-176), embedded at
the level of the file's decoded text content (the path checks and
`read_text_file_safe` are I/O and are out of scope of the claims about this
function's per-line behaviour).  The source splits `content.strip()` on
newlines, runs the line loop, and raises `URLParsingError` exactly when no
valid track was produced. -/
def load_urls_from_text_file (content : List Char) :
    Except (List Char) (List TrackItem) :=
  let lines := splitOnChar '\n' (pyStrip content)
  let tracks := processUrlLines 1 [] lines
  if tracks = [] then .error ("No valid YouTube URLs found in file".data)
  else .ok tracks

/-! ## downloader.py: per-track download -/

/-- The three `except` clauses of `download_track` (downloader.py lines
308-325): `(YTDLPDownloadError, ExtractorError)`, `OSError`, and the final
`Exception` catch-all.  The internal `DownloadError` raises (no info, file not
found) land in the catch-all. -/
inductive PyExcClass
  | ytdlp
  | osErr
  | generic
deriving DecidableEq

/-- The message prefix each `except` clause of `download_track` prepends. -/
def excMsgPre : PyExcClass → List Char
  | .ytdlp => "YouTube download failed: ".data
  | .osErr => "File/Network error during download: ".data
  | .generic => "Unexpected download error: ".data

/-- What a successful run of the `YoutubeDL` download block yields to
`download_track` (downloader.py lines 254-306): the located result file, the
info dictionary's duration, the file's size, and the format fields.  The
yt-dlp call, the file-system search for the downloaded file, and the stat
calls are the external collaborator; only their observed outcome enters the
embedding. -/
structure RetrievalOk where
  result_path : List Char
  duration : Option Int := none
  filesize : Option Nat := none
  ext : List Char := []
  acodec : List Char := []
  abr : List Char := []
deriving DecidableEq

/-- Outcome of the download block's `try` body as `download_track` observes
it.  Three cases:
`ok` — the whole body runs to the `return` without raising;
`okThenExc` — the yt-dlp call and the file search succeed and
`track.status = TrackStatus.DONE` is assigned (line 288), but one of the
statements that still run inside the `try` afterwards raises — the
`result_path.stat()` in the filesize expression (line 291, `stat_raised =
true`, in which case the `track.filesize` assignment never completes) or the
success log with its caller-supplied progress callback (line 294,
`stat_raised = false`, after `filesize` was assigned) — and the `except`
handler of the raised class runs;
`exc` — an exception raised before `track.status = DONE` is reached. -/
inductive RetrievalOutcome
  | ok (info : RetrievalOk)
  | okThenExc (info : RetrievalOk) (cls : PyExcClass) (msg : List Char)
      (stat_raised : Bool)
  | exc (cls : PyExcClass) (msg : List Char)
deriving DecidableEq

/-- The download phase of `download_track` (downloader.py lines 210-325),
starting at `track.status = TrackStatus.DOWNLOADING`.  Returns the mutated
track, the `DownloadResult`, and the list of statuses assigned, in order.
In the `okThenExc` case the assignments of lines 287-292 happen first
(`result_path`, `status = DONE`, `duration`, and — only when the exception
came from the log, not the stat — `filesize`), and then the `except` handler
(lines 308-325) overwrites the terminal `DONE` with `ERROR` and fills the
error message: the handlers sit around the whole `with` body, so a
post-`DONE` exception regresses the status. -/
def downloadPhase (track : TrackItem) (ro : RetrievalOutcome)
    (trace : List TrackStatus) : TrackItem × DownloadResult × List TrackStatus :=
  let track1 := { track with status := .downloading }
  match ro with
  | .ok info =>
    let track2 := { track1 with
      result_path := some info.result_path, status := .done,
      duration := info.duration, filesize := info.filesize }
    (track2,
     { success := true, file_path := some info.result_path,
       duration := info.duration, filesize := info.filesize,
       format_info := some [("ext".data, info.ext), ("acodec".data, info.acodec),
                            ("abr".data, info.abr)] },
     trace ++ [.downloading, .done])
  | .okThenExc info cls msg stat_raised =>
    let track2 := { track1 with
      result_path := some info.result_path, status := .done,
      duration := info.duration,
      filesize := if stat_raised then track.filesize else info.filesize }
    let emsg := excMsgPre cls ++ msg
    let track3 := { track2 with status := .error, error := some emsg }
    (track3, { success := false, error_message := some emsg },
     trace ++ [.downloading, .done, .error])
  | .exc cls msg =>
    let emsg := excMsgPre cls ++ msg
    let track2 := { track1 with status := .error, error := some emsg }
    (track2, { success := false, error_message := some emsg },
     trace ++ [.downloading, .error])

/-- `download_track` (downloader.py lines 188-325).  `search_oracle` is the
outcome of `search_track`'s collaborator call: `search_track` converts every
exception and every empty result list into `None` (lines 158-186), so the
observable outcome is `Option SearchResult`.  `search_track` first sets
`track.status = SEARCHING` (line 148).  When the track has no URL and search
fails, status becomes `ERROR` with an error message; on success the URL is
recorded and status becomes `FOUND`; dry-run returns at that point.  A track
that already has a URL goes straight to the download phase (or returns
immediately under dry-run, leaving its status untouched). -/
def download_track (track : TrackItem) (dry_run : Bool)
    (search_oracle : Option SearchResult) (ro : RetrievalOutcome) :
    TrackItem × DownloadResult × List TrackStatus :=
  match track.url with
  | none =>
    let track1 := { track with status := .searching }
    match search_oracle with
    | none =>
      let msg := "No search results for: ".data ++ track.query
      let track2 := { track1 with status := .error, error := some msg }
      (track2, { success := false, error_message := some msg }, [.searching, .error])
    | some sr =>
      let track2 := { track1 with url := some sr.url, status := .found }
      if dry_run then (track2, { success := true }, [.searching, .found])
      else downloadPhase track2 ro [.searching, .found]
  | some _ =>
    if dry_run then (track, { success := true }, [])
    else downloadPhase track ro []

/-! ## downloader.py: sequential orchestration -/

/-- `download_multiple` (downloader.py lines 327-346): a plain loop that calls
`download_track` for every element of `tracks` in order and appends each
result.  The loop body contains no cancellation check — line 338 of the
source is only the comment "Check for cancellation point here if needed".
`oracle i` supplies the collaborator outcomes for the `i`-th item. -/
def download_multiple (tracks : List TrackItem) (dry_run : Bool)
    (oracle : Nat → Option SearchResult × RetrievalOutcome) :
    List TrackItem × List DownloadResult :=
  let processed := tracks.enum.map
    (fun p => download_track p.2 dry_run (oracle p.1).1 (oracle p.1).2)
  (processed.map (fun r => r.1), processed.map (fun r => r.2.1))

/-- Modelled from the spec: §4.6 "Cancellation: cooperative only — a shared
boolean flag is checked **before** starting each new item; an item already in
flight always runs to completion (or failure) before the flag is honored."
The source contains no such flag (downloader.py line 338 is only a comment
placeholder); this definition is the spec's mandated behaviour, written for
comparison with `download_multiple`: `cancelled i` is whether cancellation has
been requested by the time item `i` would be dispatched, and processing stops
at the first item whose check sees the flag. -/
def download_multiple_cancellable (cancelled : Nat → Bool)
    (tracks : List TrackItem) (dry_run : Bool)
    (oracle : Nat → Option SearchResult × RetrievalOutcome) : List DownloadResult :=
  go 0 tracks
where
  go : Nat → List TrackItem → List DownloadResult
    | _, [] => []
    | i, t :: ts =>
      if cancelled i then []
      else (download_track t dry_run (oracle i).1 (oracle i).2).2.1 :: go (i + 1) ts

/-! ## downloader.py: concurrent orchestration -/

/-- The exceptions that can surface inside `download_multiple_concurrent`'s
collection loop: a worker exception re-raised by `future.result()` (wrapped),
or the `TypeError` raised by using an unhashable key in a `dict`. -/
inductive PyExc
  | typeErrorUnhashable
  | wrapped (msg : List Char)
deriving DecidableEq

/-- Message text of an exception, as `str(e)` would render it. -/
def pyExcMsg : PyExc → List Char
  | .typeErrorUnhashable => "unhashable type: 'TrackItem'".data
  | .wrapped msg => msg

/-- Whether a `TrackItem` can be used as a `dict` key.  `TrackItem`
(models.py line 91) is declared as a plain `@dataclass`; per the dataclasses
documentation, when `eq` is true (the default) and `frozen` is false (the
default), `__hash__` is set to `None`, which marks the class unhashable.
Using such an object as a `dict` key therefore raises
`TypeError: unhashable type: 'TrackItem'`. -/
def trackItemIsHashable : Bool := false

/-- `track_results[track] = result` (downloader.py lines 399 and 408). -/
def trackDictSet (d : List (TrackItem × DownloadResult)) (k : TrackItem)
    (v : DownloadResult) : Except PyExc (List (TrackItem × DownloadResult)) :=
  if trackItemIsHashable then .ok ((k, v) :: d) else .error .typeErrorUnhashable

/-- `track_results[track]` (downloader.py line 411). -/
def trackDictGet (d : List (TrackItem × DownloadResult)) (k : TrackItem) :
    Except PyExc DownloadResult :=
  if trackItemIsHashable then
    match d.find? (fun p => p.1 = k) with
    | some p => .ok p.2
    | none => .error (.wrapped ("KeyError".data))
  else .error .typeErrorUnhashable

/-- Collaborator outcomes for one submitted item in the concurrent
orchestrator: the search and retrieval outcomes consumed by
`download_track`, plus `worker_exc`, an exception raised inside the worker
wrapper `download_with_callback` *after* `download_track` returned (the only
code there besides the lock is the progress callback, downloader.py lines
378-381); such an exception is re-raised by `future.result()`. -/
structure ItemOracle where
  search : Option SearchResult := none
  retrieval : RetrievalOutcome := .exc .generic []
  worker_exc : Option (List Char) := none

/-- The result-collection loop of `download_multiple_concurrent`
(downloader.py lines 393-408), iterating futures in completion order
(`completion_order` lists item indices as `as_completed` yields them).  For
each future: `result = future.result()` re-raises a worker exception;
`track_results[track] = result` attempts a `dict` insert.  Any exception from
those two statements is caught by `except Exception`, which builds an error
`DownloadResult`, marks the track `ERROR`, and performs
`track_results[track] = error_result` — an insert whose own exception
propagates out of the loop uncaught. -/
def collectLoop (items : List (TrackItem × Except PyExc DownloadResult)) :
    List Nat → List (TrackItem × DownloadResult) →
    Except PyExc (List (TrackItem × DownloadResult))
  | [], d => .ok d
  | i :: rest, d =>
    match items.get? i with
    | none => collectLoop items rest d
    | some (t, res) =>
      let attempt : Except PyExc (List (TrackItem × DownloadResult)) :=
        match res with
        | .ok v => trackDictSet d t v
        | .error e => .error e
      match attempt with
      | .ok d2 => collectLoop items rest d2
      | .error e =>
        let err_result : DownloadResult :=
          { success := false,
            error_message := some ("Concurrent download failed: ".data ++ pyExcMsg e) }
        match trackDictSet d { t with status := .error, error := some (pyExcMsg e) }
            err_result with
        | .ok d2 => collectLoop items rest d2
        | .error e2 => .error e2

/-- The final projection `[track_results[track] for track in tracks]`
(downloader.py line 411). -/
def lookupAll (d : List (TrackItem × DownloadResult)) :
    List TrackItem → Except PyExc (List DownloadResult)
  | [] => .ok []
  | t :: ts => do
    let v ← trackDictGet d t
    let vs ← lookupAll d ts
    .ok (v :: vs)

/-- The worker-count clamp of `download_multiple_concurrent` (downloader.py
lines 359-366): `None` means the configured default; the result is clamped
into `[1, 5]`. -/
def clampWorkers (requested : Option Int) (config_default : Int) : Int :=
  let w := requested.getD config_default
  if w < 1 then 1 else if w > 5 then 5 else w

/-- The submission/execution phase of `download_multiple_concurrent`
(downloader.py lines 386-391): every task is submitted and executes
`download_with_callback` on its item (there is no cancellation handle); a
task whose wrapper raises after `download_track` returned carries that
exception instead of a result. -/
def concurrentProcessed (tracks : List TrackItem) (dry_run : Bool)
    (oracle : Nat → ItemOracle) : List (TrackItem × Except PyExc DownloadResult) :=
  tracks.enum.map (fun p =>
    let o := oracle p.1
    let r := download_track p.2 dry_run o.search o.retrieval
    match o.worker_exc with
    | some m => (r.1, .error (.wrapped m))
    | none => (r.1, .ok r.2.1))

/-- `download_multiple_concurrent` (downloader.py lines 348-413): execute all
submitted items, drain the futures in `completion_order` through
`collectLoop`, and on success project the result map back through the
original track list.  The function either returns the projected list or
propagates an uncaught exception. -/
def download_multiple_concurrent (tracks : List TrackItem) (dry_run : Bool)
    (oracle : Nat → ItemOracle) (completion_order : List Nat) :
    Except PyExc (List DownloadResult) :=
  match collectLoop (concurrentProcessed tracks dry_run oracle) completion_order [] with
  | .error e => .error e
  | .ok d =>
    lookupAll d ((concurrentProcessed tracks dry_run oracle).map (fun p => p.1))

/-! ## csv_parser.py: encoding detection (`sniff_csv`) -/

/-- The four candidate encodings of `sniff_csv` (csv_parser.py line 69), in
source order. -/
inductive PyEncoding
  | utf8sig
  | utf8
  | latin1
  | cp1252
deriving DecidableEq

def ENCODING_CANDIDATES : List PyEncoding := [.utf8sig, .utf8, .latin1, .cp1252]

/-- Whether `raw.decode(encoding, errors="replace")` raises
`UnicodeDecodeError` (csv_parser.py line 75).  It never does: with
`errors="replace"` every undecodable byte sequence is replaced by U+FFFD and
the call always succeeds (a `LookupError` would require an unknown codec
name, impossible for the four fixed names).  This constant `false` is the
modelled Python semantics of that exact call, and is what makes the
source's `except (UnicodeDecodeError, LookupError)` clause and its `for/else`
fallback dead code. -/
def decode_with_replace_raises (_enc : PyEncoding) (_raw : List Nat) : Bool := false

/-- The encoding-selection loop of `sniff_csv` (csv_parser.py lines 69-84):
take the first candidate whose decode does not raise; if all raise, fall back
to `utf-8-sig` (the `for/else` branch). -/
def sniff_encoding (raw : List Nat) : PyEncoding :=
  match ENCODING_CANDIDATES.find? (fun enc => !decode_with_replace_raises enc raw) with
  | some e => e
  | none => .utf8sig

/-- A continuation byte `0x80-0xBF`. -/
def contByte (b : Nat) : Bool := 128 ≤ b ∧ b ≤ 191

/-- Strict UTF-8 validity of a byte sequence (RFC 3629: no overlong forms, no
surrogates, maximum U+10FFFF) — whether `bytes.decode("utf-8")` with strict
errors would succeed. -/
def validUtf8 : List Nat → Bool
  | [] => true
  | b :: rest =>
    if b ≤ 127 then validUtf8 rest
    else if 194 ≤ b ∧ b ≤ 223 then
      match rest with
      | c1 :: r => contByte c1 && validUtf8 r
      | [] => false
    else if 224 ≤ b ∧ b ≤ 239 then
      match rest with
      | c1 :: c2 :: r =>
        (if b = 224 then decide (160 ≤ c1 ∧ c1 ≤ 191)
         else if b = 237 then decide (128 ≤ c1 ∧ c1 ≤ 159)
         else contByte c1) && contByte c2 && validUtf8 r
      | _ => false
    else if 240 ≤ b ∧ b ≤ 244 then
      match rest with
      | c1 :: c2 :: c3 :: r =>
        (if b = 240 then decide (144 ≤ c1 ∧ c1 ≤ 191)
         else if b = 244 then decide (128 ≤ c1 ∧ c1 ≤ 143)
         else contByte c1) && contByte c2 && contByte c3 && validUtf8 r
      | _ => false
    else false

/-- The UTF-8 byte-order mark. -/
def BOM : List Nat := [239, 187, 191]

/-- Whether a strict decode succeeds for each candidate: `utf-8-sig` strips an
optional BOM then decodes strict UTF-8; `latin-1` maps every byte; `cp1252`
is total except for the five unassigned bytes 0x81, 0x8D, 0x8F, 0x90, 0x9D. -/
def decodesStrict (enc : PyEncoding) (raw : List Nat) : Bool :=
  match enc with
  | .utf8sig => validUtf8 (if listStartsNat BOM raw then raw.drop 3 else raw)
  | .utf8 => validUtf8 raw
  | .latin1 => raw.all (fun b => b ≤ 255)
  | .cp1252 => raw.all (fun b => b ≤ 255 ∧ b ≠ 129 ∧ b ≠ 141 ∧ b ≠ 143 ∧ b ≠ 144 ∧ b ≠ 157)
where
  listStartsNat : List Nat → List Nat → Bool
    | [], _ => true
    | _ :: _, [] => false
    | n :: ns, h :: hs => n == h && listStartsNat ns hs

/-- Modelled from the spec: §4.1 — "determine a usable text encoding by trying
a fixed ordered candidate list … accepting the first that decodes without
error; if none succeed, fall back to UTF-8 with lossy replacement."  This is
the detection the spec describes, with strict per-candidate decoding;
`none` designates the lossy-replacement fallback. -/
def sniff_encoding_spec (raw : List Nat) : Option PyEncoding :=
  ENCODING_CANDIDATES.find? (fun enc => decodesStrict enc raw)

/-! ## The claimed status discipline (C9) -/

/-- Terminal statuses: `Done`, `Error`, `Skipped`. -/
def isTerminalStatus : TrackStatus → Bool
  | .done => true
  | .error => true
  | .skipped => true
  | _ => false

/-- Position of a status along the chain `Pending → Searching → Found →
Downloading → Done` (the terminal alternates are not on the chain). -/
def chainRank : TrackStatus → Nat
  | .pending => 0
  | .searching => 1
  | .found => 2
  | .downloading => 3
  | .done => 4
  | .error => 0
  | .skipped => 0

/-- Whether a status lies on the chain. -/
def isChainStatus : TrackStatus → Bool
  | .error => false
  | .skipped => false
  | _ => true

/-- One admissible status change per the claim: the old status is not
terminal, and the new status is either `Error` or a strictly later chain
status. -/
def validStep (a b : TrackStatus) : Bool :=
  !isTerminalStatus a && (b == .error || (isChainStatus b && chainRank a < chainRank b))

/-- A status history is valid when every consecutive pair is an admissible
step; in particular a terminal status can only appear last. -/
def validTrace : List TrackStatus → Bool
  | [] => true
  | [_] => true
  | a :: b :: rest => validStep a b && validTrace (b :: rest)

/-- One admissible status change of the amended claim: either a step the
original claim admits, or the one regression the code actually performs —
`Done` overwritten by `Error` when a statement running after
`track.status = DONE` inside the `try` raises. -/
def validStepOrPostDone (a b : TrackStatus) : Bool :=
  validStep a b || (a == .done && b == .error)

/-- A status history admissible under the amended claim. -/
def validTraceAmended : List TrackStatus → Bool
  | [] => true
  | [_] => true
  | a :: b :: rest => validStepOrPostDone a b && validTraceAmended (b :: rest)

/-! ## Concrete inputs used by witnesses and counterexamples -/

/-- A pending track with no known source URL. -/
def sampleTrack : TrackItem :=
  { artist := "a".data, title := "b".data, query := "a - b".data,
    target_stub := "a - b".data }

/-- A pending track that already carries a source URL. -/
def sampleTrackUrl : TrackItem :=
  { artist := "a".data, title := "x".data, query := "a - x".data,
    target_stub := "a - x".data, url := some "https://www.youtube.com/watch?v=u1".data }

/-- A second distinct track with a source URL. -/
def sampleTrackUrl2 : TrackItem :=
  { artist := "c".data, title := "y".data, query := "c - y".data,
    target_stub := "c - y".data, url := some "https://www.youtube.com/watch?v=u2".data }

/-- A successful search outcome. -/
def sampleSearch : SearchResult :=
  { title := "found title".data, url := "https://www.youtube.com/watch?v=abc".data }

/-- A successful retrieval outcome. -/
def sampleOk : RetrievalOk := { result_path := "Music/x.opus".data }

/-- Sequential-orchestrator oracle: every item searches and retrieves
successfully. -/
def seqOracle : Nat → Option SearchResult × RetrievalOutcome :=
  fun _ => (some sampleSearch, .ok sampleOk)

/-- Concurrent-orchestrator oracle: every item succeeds. -/
def concOracleOk : Nat → ItemOracle :=
  fun _ => { search := some sampleSearch, retrieval := .ok sampleOk }

/-- Concurrent-orchestrator oracle: the worker wrapper raises after the
download (e.g. from the progress callback). -/
def concOracleWorkerExc : Nat → ItemOracle :=
  fun _ => { search := some sampleSearch, retrieval := .ok sampleOk,
             worker_exc := some "callback failure".data }

/-- Ten preview rows over headers `combo` and `other`: `combo` carries a
separator in exactly 3 of them, `other` in exactly 2 (the 30%-boundary data
of the claim). -/
def boundaryRows : List PyRow :=
  [[("combo".data, "a - b".data), ("other".data, "x".data)],
   [("combo".data, "c - d".data), ("other".data, "y-z".data)],
   [("combo".data, "e - f".data), ("other".data, "w-v".data)],
   [("combo".data, "p1".data), ("other".data, "q1".data)],
   [("combo".data, "p2".data), ("other".data, "q2".data)],
   [("combo".data, "p3".data), ("other".data, "q3".data)],
   [("combo".data, "p4".data), ("other".data, "q4".data)],
   [("combo".data, "p5".data), ("other".data, "q5".data)],
   [("combo".data, "p6".data), ("other".data, "q6".data)],
   [("combo".data, "p7".data), ("other".data, "q7".data)]]

/-- A URL-list file body with one `#`-comment line, one blank line, two valid
lines, one malformed line, and one line that duplicates the first valid URL
in canonical form (a short link to the same identifier). -/
def urlFileContent : List Char :=
  ("# comment\n\nhttps://www.youtube.com/watch?v=AAA\nhttps://youtu.be/BBB\n" ++
   "not a url\nhttps://youtu.be/AAA").data

/-! ## Sanity checks of the embedding on concrete inputs -/

example : pyStrip "  ab c \n".data = "ab c".data := by decide
example : splitOnceAux " - ".data "a - b - c".data = some ("a".data, "b - c".data) := by decide
example : splitOnChar '\n' "a\n\nb".data = ["a".data, [], "b".data] := by decide
example : score_header "name".data ARTIST_SYNONYMS = 0 := by decide
example : score_header "name".data TRACK_SYNONYMS = 11 := by decide
example : score_header "artist".data ARTIST_SYNONYMS = 10 + 2 + 3 := by decide
example : quotedMatch "A\"B\"C\"".data = some ("A".data, "B\"C".data) := by decide
example : quotedMatch "A\"\"".data = none := by decide
example : extract_video_id "youtube.com/watch?v=&x youtube.com/watch?v=ok".data =
    some "ok".data := by decide
example : validUtf8 [195, 169] = true := by decide

/-! ## C5: encoding detection -/

/-- C5: the claim states that `sniff_csv` returns the first candidate encoding
that decodes the 64 KiB sample without error, and in particular detects
Latin-1 for a byte input that is invalid UTF-8 but valid Latin-1.  Because the
source decodes with `errors="replace"`, the decode never raises and the loop
always accepts the first candidate: detection returns `utf-8-sig` for every
byte input, while the spec's detection (first candidate that *strictly*
decodes) yields Latin-1 on the byte `0xE9`. -/
theorem c5_sniff_always_first_candidate :
    (∀ raw : List Nat, sniff_encoding raw = PyEncoding.utf8sig) ∧
    sniff_encoding [233] = PyEncoding.utf8sig ∧
    sniff_encoding_spec [233] = some PyEncoding.latin1 ∧
    PyEncoding.utf8sig ≠ PyEncoding.latin1 := by
  refine ⟨fun raw => ?_, by decide, by decide, by decide⟩
  simp [sniff_encoding, ENCODING_CANDIDATES, decode_with_replace_raises, List.find?]

/-! ## C4: column-detection trichotomy -/

/-- C4 (counterexample): on the single header `name` with one separator-free
preview row the detector returns a track column alone — artist and single
null but track non-null — a combination the claimed trichotomy excludes. -/
theorem c4_trichotomy_counterexample :
    detect_columns ["name".data] [[("name".data, "JustATitle".data)]] =
      (none, some "name".data, none) ∧
    ¬(((detect_columns ["name".data] [[("name".data, "JustATitle".data)]]).1 ≠ none ∧
       (detect_columns ["name".data] [[("name".data, "JustATitle".data)]]).2.1 ≠ none ∧
       (detect_columns ["name".data] [[("name".data, "JustATitle".data)]]).2.2 = none) ∨
      ((detect_columns ["name".data] [[("name".data, "JustATitle".data)]]).2.2 ≠ none ∧
       (detect_columns ["name".data] [[("name".data, "JustATitle".data)]]).1 = none ∧
       (detect_columns ["name".data] [[("name".data, "JustATitle".data)]]).2.1 = none) ∨
      ((detect_columns ["name".data] [[("name".data, "JustATitle".data)]]).1 = none ∧
       (detect_columns ["name".data] [[("name".data, "JustATitle".data)]]).2.1 = none ∧
       (detect_columns ["name".data] [[("name".data, "JustATitle".data)]]).2.2 = none)) := by
  decide

theorem bestByStep_acc_isSome (score : List Char → Int) :
    ∀ (l : List (List Char)) (acc : Option (List Char) × Int), acc.1.isSome = true →
      ((l.foldl (fun a h => if score h > a.2 then (some h, score h) else a) acc).1).isSome
        = true := by
  intro l
  induction l with
  | nil => intro acc h; simpa using h
  | cons hd tl ih =>
    intro acc hacc
    simp only [List.foldl_cons]
    by_cases hc : score hd > acc.2
    · exact ih _ (by simp [hc])
    · rw [if_neg hc]; exact ih _ hacc

theorem bestBy_fst_isSome (l : List (List Char)) (score : List Char → Int)
    (hl : l ≠ []) (hs : ∀ h, 0 ≤ score h) : ((bestBy l score).1).isSome = true := by
  cases l with
  | nil => exact absurd rfl hl
  | cons hd tl =>
    unfold bestBy
    simp only [List.foldl_cons]
    have h0 : score hd > (-1 : Int) := lt_of_lt_of_le (by norm_num) (hs hd)
    rw [if_pos h0]
    exact bestByStep_acc_isSome score tl _ (by simp)

theorem bestBy_nil_fst (score : List Char → Int) : (bestBy [] score).1 = none := rfl

theorem fixup_cases (headers : List (List Char)) (bestA bestT : Option (List Char) × Int)
    (ts : List Char → Int) :
    (∃ s, sameColumnFixup headers bestA bestT ts = (bestA.1, some s, none)) ∨
    sameColumnFixup headers bestA bestT ts = (none, bestT.1, none) ∨
    sameColumnFixup headers bestA bestT ts = (bestA.1, bestT.1, none) := by
  unfold sameColumnFixup
  by_cases h : bestA.1 = bestT.1
  · rw [if_pos h]
    rcases hfold : headers.foldl
        (fun acc h2 => if some h2 = bestA.1 then acc
          else if ts h2 > acc.2 then (some h2, ts h2) else acc)
        ((none : Option (List Char)), (-1 : Int)) with ⟨so, sc⟩
    simp only [hfold]
    cases so with
    | none => right; left; rfl
    | some s =>
      by_cases hcond : s ≠ [] ∧ sc > 0
      · left; exact ⟨s, by simp only [if_pos hcond]⟩
      · right; left; simp only [if_neg hcond]
  · rw [if_neg h]; right; right; rfl

theorem detect_columns_cases (headers : List (List Char)) (rows : List PyRow) :
    (∃ c, detect_columns headers rows = (none, none, some c)) ∨
    detect_columns headers rows =
      sameColumnFixup headers
        (bestBy headers (fun h => (score_header h ARTIST_SYNONYMS : Int)))
        (bestBy headers (fun h => (score_header h TRACK_SYNONYMS : Int)))
        (fun h => (score_header h TRACK_SYNONYMS : Int)) := by
  unfold detect_columns
  by_cases hle : (bestBy headers (fun h => (score_header h ARTIST_SYNONYMS : Int))).2 ≤ 2 ∨
      (bestBy headers (fun h => (score_header h TRACK_SYNONYMS : Int))).2 ≤ 2
  · rw [if_pos hle]
    cases hdet : detect_single_column headers rows with
    | none => right; rfl
    | some c => left; exact ⟨c, rfl⟩
  · rw [if_neg hle]; right; rfl

/-- C4 (amended): the detector's output satisfies a weakened trichotomy — a
non-null single column forces both separate columns null, and a non-null
artist column forces a non-null track column with a null single column — but
the detector can additionally report a track column alone (artist null,
single null), which happens when the same header wins both roles and no other
header has a strictly positive track score. -/
theorem c4_amended_trichotomy :
    ∀ (headers : List (List Char)) (rows : List PyRow),
      ((detect_columns headers rows).2.2.isSome = true →
        (detect_columns headers rows).1 = none ∧
        (detect_columns headers rows).2.1 = none) ∧
      ((detect_columns headers rows).1.isSome = true →
        (detect_columns headers rows).2.1.isSome = true ∧
        (detect_columns headers rows).2.2 = none) := by
  intro headers rows
  rcases detect_columns_cases headers rows with ⟨c, hc⟩ | hfix
  · rw [hc]
    exact ⟨fun _ => ⟨rfl, rfl⟩, fun hcontra => by simp at hcontra⟩
  · rw [hfix]
    rcases fixup_cases headers
        (bestBy headers (fun h => (score_header h ARTIST_SYNONYMS : Int)))
        (bestBy headers (fun h => (score_header h TRACK_SYNONYMS : Int)))
        (fun h => (score_header h TRACK_SYNONYMS : Int)) with ⟨s, hs⟩ | heq | heq
    · rw [hs]
      exact ⟨fun hcontra => by simp at hcontra, fun _ => ⟨rfl, rfl⟩⟩
    · rw [heq]
      exact ⟨fun hcontra => by simp at hcontra, fun hcontra => by simp at hcontra⟩
    · rw [heq]
      refine ⟨fun hcontra => by simp at hcontra, fun hA => ⟨?_, rfl⟩⟩
      have hne : headers ≠ [] := by
        intro hnil
        rw [hnil] at hA
        simp [bestBy_nil_fst] at hA
      exact bestBy_fst_isSome headers _ hne (fun h => Int.natCast_nonneg _)

/-- C4 (witness): on headers `artist`, `title` with no preview rows the
detector returns both separate columns, so the amended invariant's
artist-implies-track direction fires. -/
theorem c4_amended_trichotomy_witness :
    (detect_columns ["artist".data, "title".data] []).2.1.isSome = true ∧
    (detect_columns ["artist".data, "title".data] []).2.2 = none :=
  (c4_amended_trichotomy ["artist".data, "title".data] []).2 (by decide)

/-! ## C7: single-column detection threshold -/

theorem dscFold_spec (rows : List PyRow) :
    ∀ (hs : List (List Char)) (best : Option (List Char)) (bc : Nat),
      ((hs.foldl (fun acc h =>
          if sepCount rows h > acc.2 ∧ 10 * sepCount rows h ≥ 3 * rows.length
          then (some h, sepCount rows h) else acc) (best, bc)) = (best, bc) ∨
        ∃ h, h ∈ hs ∧
          (hs.foldl (fun acc h2 =>
            if sepCount rows h2 > acc.2 ∧ 10 * sepCount rows h2 ≥ 3 * rows.length
            then (some h2, sepCount rows h2) else acc) (best, bc)).1 = some h ∧
          (hs.foldl (fun acc h2 =>
            if sepCount rows h2 > acc.2 ∧ 10 * sepCount rows h2 ≥ 3 * rows.length
            then (some h2, sepCount rows h2) else acc) (best, bc)).2 = sepCount rows h ∧
          10 * sepCount rows h ≥ 3 * rows.length) ∧
      bc ≤ (hs.foldl (fun acc h =>
          if sepCount rows h > acc.2 ∧ 10 * sepCount rows h ≥ 3 * rows.length
          then (some h, sepCount rows h) else acc) (best, bc)).2 ∧
      (∀ h, h ∈ hs →
        sepCount rows h ≤ (hs.foldl (fun acc h2 =>
          if sepCount rows h2 > acc.2 ∧ 10 * sepCount rows h2 ≥ 3 * rows.length
          then (some h2, sepCount rows h2) else acc) (best, bc)).2 ∨
        10 * sepCount rows h < 3 * rows.length) := by
  intro hs
  induction hs with
  | nil =>
    intro best bc
    exact ⟨Or.inl rfl, le_refl _, fun h hm => absurd hm (List.not_mem_nil h)⟩
  | cons hd tl ih =>
    intro best bc
    simp only [List.foldl_cons]
    by_cases hc : sepCount rows hd > bc ∧ 10 * sepCount rows hd ≥ 3 * rows.length
    · rw [if_pos hc]
      rcases ih (some hd) (sepCount rows hd) with ⟨hdisj, hle, hall⟩
      refine ⟨?_, le_trans (le_of_lt hc.1) hle, ?_⟩
      · right
        rcases hdisj with heq | ⟨h, hm, h1, h2, h3⟩
        · exact ⟨hd, List.mem_cons_self hd tl, by rw [heq], by rw [heq], hc.2⟩
        · exact ⟨h, List.mem_cons_of_mem hd hm, h1, h2, h3⟩
      · intro h hm
        rcases List.mem_cons.mp hm with rfl | hm2
        · exact Or.inl (le_trans (le_refl _) hle)
        · exact hall h hm2
    · rw [if_neg hc]
      rcases ih best bc with ⟨hdisj, hle, hall⟩
      refine ⟨?_, hle, ?_⟩
      · rcases hdisj with heq | ⟨h, hm, h1, h2, h3⟩
        · exact Or.inl heq
        · exact Or.inr ⟨h, List.mem_cons_of_mem hd hm, h1, h2, h3⟩
      · intro h hm
        rcases List.mem_cons.mp hm with rfl | hm2
        · rcases Decidable.not_and_iff_or_not.mp hc with hbc | hthr
          · exact Or.inl (le_trans (Nat.le_of_not_lt hbc) hle)
          · exact Or.inr (Nat.lt_of_not_le hthr)
        · exact hall h hm2

/-- C7: for every header list and non-empty preview-row set, single-column
detection selects a header only when its separator-bearing row count is
maximal over all headers and reaches 30% of the preview rows, and selects no
header exactly when every header is below the 30% threshold; on ten rows a
column with 3 separator-bearing rows is selected while a column with only 2
is not. -/
theorem c7_single_column_threshold :
    (∀ (headers : List (List Char)) (rows : List PyRow), rows ≠ [] →
      (∀ h, detect_single_column headers rows = some h →
        h ∈ headers ∧ 10 * sepCount rows h ≥ 3 * rows.length ∧
        ∀ h2, h2 ∈ headers → sepCount rows h2 ≤ sepCount rows h) ∧
      (detect_single_column headers rows = none →
        ∀ h, h ∈ headers → 10 * sepCount rows h < 3 * rows.length)) ∧
    detect_single_column ["combo".data, "other".data] boundaryRows = some "combo".data ∧
    detect_single_column ["other".data] boundaryRows = none ∧
    sepCount boundaryRows "combo".data = 3 ∧
    sepCount boundaryRows "other".data = 2 ∧ boundaryRows.length = 10 := by
  refine ⟨fun headers rows hr => ?_, by decide, by decide, by decide, by decide, by decide⟩
  have hdef : detect_single_column headers rows =
      (headers.foldl (fun acc h =>
        if sepCount rows h > acc.2 ∧ 10 * sepCount rows h ≥ 3 * rows.length
        then (some h, sepCount rows h) else acc)
        ((none : Option (List Char)), 0)).1 := rfl
  rcases dscFold_spec rows headers none 0 with ⟨hdisj, _, hall⟩
  have hnpos : 0 < 3 * rows.length := by
    have : 0 < rows.length := List.length_pos.mpr hr
    omega
  constructor
  · intro h hsome
    rw [hdef] at hsome
    rcases hdisj with heq | ⟨h2, hm, h1, h2eq, h3⟩
    · rw [heq] at hsome; simp at hsome
    · rw [h1] at hsome
      have hh : h2 = h := by injection hsome
      subst hh
      refine ⟨hm, h3, fun h3' hm3 => ?_⟩
      rcases hall h3' hm3 with hle2 | hlt2
      · rw [h2eq] at hle2; exact hle2
      · have : 10 * sepCount rows h3' < 10 * sepCount rows h2 :=
          lt_of_lt_of_le hlt2 h3
        omega
  · intro hnone h hm
    rw [hdef] at hnone
    rcases hdisj with heq | ⟨h2, hm2, h1, h2eq, h3⟩
    · rcases hall h hm with hle2 | hlt2
      · have hz : (headers.foldl (fun acc h2 =>
            if sepCount rows h2 > acc.2 ∧ 10 * sepCount rows h2 ≥ 3 * rows.length
            then (some h2, sepCount rows h2) else acc)
            ((none : Option (List Char)), 0)).2 = 0 := by rw [heq]
        rw [hz] at hle2
        have : sepCount rows h = 0 := Nat.le_zero.mp hle2
        omega
      · exact hlt2
    · rw [h1] at hnone; simp at hnone

/-- C7 (witness): the general threshold theorem applied at the boundary data:
the `other` column, present alone, is rejected, so its count of 2 is strictly
below 30% of the 10 rows. -/
theorem c7_single_column_threshold_witness :
    10 * sepCount boundaryRows "other".data < 3 * boundaryRows.length :=
  ((c7_single_column_threshold.1 ["other".data] boundaryRows (by decide)).2
    (by decide)) "other".data (by decide)

/-! ## C6: the single-column splitter -/

theorem try_separators_both_nonempty :
    ∀ (seps : List (List Char)) (v a b : List Char),
      try_separators seps v = some (a, b) → a ≠ [] ∧ b ≠ [] := by
  intro seps
  induction seps with
  | nil => intro v a b h; exact absurd h (by simp [try_separators])
  | cons sep rest ih =>
    intro v a b h
    unfold try_separators at h
    split at h
    · split at h
      · split at h
        · rename_i hcond
          injection h with h2
          rw [Prod.mk.injEq] at h2
          rw [← h2.1, ← h2.2]
          exact hcond
        · exact ih v a b h
      · exact ih v a b h
    · exact ih v a b h

/-- C6: the splitter maps `Artist - Title`, `Artist — Title` and
`Artist "Title"` to `("Artist", "Title")`, maps `Just A Title` to the
empty-artist fallback, and whenever the returned artist is empty the result
is exactly `("", trimmed value)`. -/
theorem c6_splitter_table :
    parse_artist_title_from_single "Artist - Title".data =
      ("Artist".data, "Title".data) ∧
    parse_artist_title_from_single "Artist — Title".data =
      ("Artist".data, "Title".data) ∧
    parse_artist_title_from_single "Artist \"Title\"".data =
      ("Artist".data, "Title".data) ∧
    parse_artist_title_from_single "Just A Title".data =
      ([], "Just A Title".data) ∧
    (∀ v, (parse_artist_title_from_single v).1 = [] →
      parse_artist_title_from_single v = ([], pyStrip v)) := by
  refine ⟨by decide, by decide, by decide, by decide, fun v h => ?_⟩
  unfold parse_artist_title_from_single at h ⊢
  cases hsep : try_separators SEPARATORS (pyStrip v) with
  | some p =>
    obtain ⟨p0, p1⟩ := p
    simp only [hsep] at h
    exact absurd h (try_separators_both_nonempty _ _ _ _ hsep).1
  | none =>
    simp only [hsep] at h ⊢
    cases hq : quotedMatch (pyStrip v) with
    | none => simp only [hq]
    | some g =>
      obtain ⟨g1, g2⟩ := g
      simp only [hq] at h ⊢
      by_cases hc : pyStrip g1 ≠ [] ∧ pyStrip g2 ≠ []
      · rw [if_pos hc] at h
        exact absurd h hc.1
      · rw [if_neg hc]

/-- C6 (witness): the empty-artist case of the general fallback clause,
instantiated at `Just A Title`. -/
theorem c6_splitter_table_witness :
    parse_artist_title_from_single "Just A Title".data =
      ([], pyStrip "Just A Title".data) :=
  c6_splitter_table.2.2.2.2 "Just A Title".data (by decide)

/-! ## C9: status discipline in `download_track` -/

/-- C9 (counterexample): a pending track with a known URL whose download
block succeeds up to `track.status = DONE` but whose `result_path.stat()`
(downloader.py line 291) then raises: the `except OSError` handler overwrites
the terminal `DONE` with `ERROR`, so the status history
`Pending, Downloading, Done, Error` regresses a terminal state — refuting the
claim that `Error` is reachable only from a non-terminal state and that no
step after a terminal state changes the status. -/
theorem c9_terminal_regression_counterexample :
    (download_track sampleTrackUrl false none
      (.okThenExc sampleOk .osErr "stat failed".data true)).2.2 =
      [.downloading, .done, .error] ∧
    (download_track sampleTrackUrl false none
      (.okThenExc sampleOk .osErr "stat failed".data true)).1.status = .error ∧
    validTrace (sampleTrackUrl.status ::
      (download_track sampleTrackUrl false none
        (.okThenExc sampleOk .osErr "stat failed".data true)).2.2) = false := by
  decide

/-- C9 (amended): for every pending work item, with or without dry-run and
for every collaborator outcome, every consecutive status change of
`download_track` is either an advance along
`Pending → Searching → Found → Downloading → Done` with `Error` assigned only
over a non-terminal status, or the single regression the code performs:
`Done` overwritten by `Error` when one of the statements still inside the
`try` after `track.status = DONE` (the result-file stat or the success log)
raises. -/
theorem c9_amended_status_monotone :
    ∀ (track : TrackItem) (dry_run : Bool) (so : Option SearchResult)
      (ro : RetrievalOutcome), track.status = .pending →
      validTraceAmended
        (track.status :: (download_track track dry_run so ro).2.2) = true := by
  intro track dry_run so ro h
  rw [h]
  cases hurl : track.url <;> cases so <;> cases dry_run <;> cases ro <;>
    simp [download_track, hurl, downloadPhase, validTraceAmended,
      validStepOrPostDone, validStep, isTerminalStatus, isChainStatus, chainRank]

/-- C9 (witness): the amended discipline at a pending track with no URL,
searched successfully, whose success log raises after `DONE`. -/
theorem c9_amended_status_monotone_witness :
    validTraceAmended (sampleTrack.status ::
      (download_track sampleTrack false (some sampleSearch)
        (.okThenExc sampleOk .generic "log failure".data false)).2.2) = true :=
  c9_amended_status_monotone sampleTrack false (some sampleSearch)
    (.okThenExc sampleOk .generic "log failure".data false) (by decide)

/-! ## C1/C3: the concurrent orchestrator's result collection -/

theorem trackDictSet_raises (d : List (TrackItem × DownloadResult)) (k : TrackItem)
    (v : DownloadResult) : trackDictSet d k v = .error .typeErrorUnhashable := rfl

theorem trackDictGet_raises (d : List (TrackItem × DownloadResult)) (k : TrackItem) :
    trackDictGet d k = .error .typeErrorUnhashable := rfl

theorem collectLoop_ok_or_raises (items : List (TrackItem × Except PyExc DownloadResult)) :
    ∀ (order : List Nat) (d : List (TrackItem × DownloadResult)),
      collectLoop items order d = .ok d ∨
      collectLoop items order d = .error .typeErrorUnhashable := by
  intro order
  induction order with
  | nil => intro d; exact Or.inl rfl
  | cons i rest ih =>
    intro d
    unfold collectLoop
    cases hget : items.get? i with
    | none => simpa only [hget] using ih d
    | some p =>
      obtain ⟨t, res⟩ := p
      right
      cases res with
      | ok v => simp [hget, trackDictSet, trackItemIsHashable]
      | error e => simp [hget, trackDictSet, trackItemIsHashable]

theorem lookupAll_raises (d : List (TrackItem × DownloadResult))
    (ts : List TrackItem) (h : ts ≠ []) :
    lookupAll d ts = .error .typeErrorUnhashable := by
  cases ts with
  | nil => exact absurd rfl h
  | cons t ts2 => rfl

theorem concurrentProcessed_length (tracks : List TrackItem) (dry_run : Bool)
    (oracle : Nat → ItemOracle) :
    (concurrentProcessed tracks dry_run oracle).length = tracks.length := by
  simp [concurrentProcessed]

/-- C1: the claim states that `download_multiple_concurrent` always returns a
result list of the same length and order as its input, collected into a map
keyed by item identity.  In fact, for every non-empty input batch — whatever
the completion order, the dry-run flag and the collaborator outcomes — the
function raises `TypeError`: `TrackItem` is a non-frozen `eq` dataclass,
hence unhashable, so the very first `track_results[track] = result` (and the
error-handler's own insert, and the final projection's lookup) raises. -/
theorem c1_concurrent_always_raises :
    ∀ (tracks : List TrackItem) (dry_run : Bool) (oracle : Nat → ItemOracle)
      (completion_order : List Nat), tracks ≠ [] →
      download_multiple_concurrent tracks dry_run oracle completion_order =
        .error .typeErrorUnhashable := by
  intro tracks dry_run oracle order hne
  unfold download_multiple_concurrent
  obtain hok | herr :=
    collectLoop_ok_or_raises (concurrentProcessed tracks dry_run oracle) order []
  · rw [hok]
    apply lookupAll_raises
    intro hmapnil
    have hlen := congrArg List.length hmapnil
    simp [concurrentProcessed_length] at hlen
    exact hne hlen
  · rw [herr]

/-- C1 (witness): a single-item batch, successful search and retrieval,
completion order `[0]`: the orchestrator raises instead of returning a
one-element result list. -/
theorem c1_concurrent_always_raises_witness :
    download_multiple_concurrent [sampleTrack] false concOracleOk [0] =
      .error .typeErrorUnhashable :=
  c1_concurrent_always_raises [sampleTrack] false concOracleOk [0] (by simp)

/-- C3: per-item failure containment holds at the `download_track` level —
every exception class raised during a single item's download is converted
into a failed `DownloadResult` carrying the error message, with the item
marked `Error` — but the batch-level half of the claim fails: a worker
infrastructure exception makes `download_multiple_concurrent` raise
`TypeError` out of its own error handler (the handler's
`track_results[track] = error_result` uses the unhashable item as a key), so
the batch does not complete with one outcome per item. -/
theorem c3_item_contained_but_batch_crashes :
    (∀ (track : TrackItem) (u : List Char) (so : Option SearchResult)
       (cls : PyExcClass) (msg : List Char), track.url = some u →
       (download_track track false so (.exc cls msg)).2.1.success = false ∧
       (download_track track false so (.exc cls msg)).2.1.error_message =
         some (excMsgPre cls ++ msg) ∧
       (download_track track false so (.exc cls msg)).1.status = .error ∧
       (download_track track false so (.exc cls msg)).1.error =
         some (excMsgPre cls ++ msg)) ∧
    download_multiple_concurrent [sampleTrack] false concOracleWorkerExc [0] =
      .error .typeErrorUnhashable := by
  constructor
  · intro track u so cls msg hurl
    refine ⟨?_, ?_, ?_, ?_⟩ <;> simp [download_track, hurl, downloadPhase]
  · rfl

/-- C3 (witness): a concrete item with a known URL whose retrieval raises an
`OSError`: the outcome is a failure result with the prefixed message and the
item alone is marked `Error`. -/
theorem c3_item_contained_but_batch_crashes_witness :
    (download_track sampleTrackUrl false none (.exc .osErr "boom".data)).2.1.success
      = false ∧
    (download_track sampleTrackUrl false none (.exc .osErr "boom".data)).2.1.error_message
      = some (excMsgPre .osErr ++ "boom".data) ∧
    (download_track sampleTrackUrl false none (.exc .osErr "boom".data)).1.status
      = .error ∧
    (download_track sampleTrackUrl false none (.exc .osErr "boom".data)).1.error
      = some (excMsgPre .osErr ++ "boom".data) :=
  c3_item_contained_but_batch_crashes.1 sampleTrackUrl
    "https://www.youtube.com/watch?v=u1".data none .osErr "boom".data rfl

/-! ## C2: cancellation -/

/-- C2 (counterexample): with cancellation requested before the first item
(the flag permanently set), the claimed cooperative behaviour starts no item
and yields no results, but the code — which contains no flag check — still
processes both items of a two-item batch and returns two results. -/
theorem c2_cancellation_counterexample :
    (download_multiple [sampleTrackUrl, sampleTrackUrl2] true seqOracle).2.length = 2 ∧
    download_multiple_cancellable (fun _ => true) [sampleTrackUrl, sampleTrackUrl2]
      true seqOracle = [] ∧
    (download_multiple [sampleTrackUrl, sampleTrackUrl2] true seqOracle).2.length ≠
      (download_multiple_cancellable (fun _ => true) [sampleTrackUrl, sampleTrackUrl2]
        true seqOracle).length := by
  refine ⟨rfl, rfl, by decide⟩

/-- C2 (amended): the sequential orchestrator checks no cancellation flag —
the loop body of `download_multiple` has only a comment where a check might
go — so every submitted item is processed and the result count always equals
the full batch size, regardless of any cancellation request. -/
theorem c2_amended_no_cancellation :
    ∀ (tracks : List TrackItem) (dry_run : Bool)
      (oracle : Nat → Option SearchResult × RetrievalOutcome),
      (download_multiple tracks dry_run oracle).2.length = tracks.length := by
  intro tracks dry_run oracle
  simp [download_multiple]

/-! ## C8: URL-list loading -/

/-- C8: comment (`#`, `//`) and blank lines are ignored; malformed lines and
lines duplicating an earlier canonical URL are skipped without failing the
batch; a file with 2 valid lines, 1 canonical duplicate and 1 malformed line
yields exactly 2 items; and the loader fails exactly when the line loop
produced zero valid items (in particular it never returns an empty list). -/
theorem c8_url_list_loading :
    ((load_urls_from_text_file urlFileContent).toOption.map List.length = some 2) ∧
    ((load_urls_from_text_file urlFileContent).toOption.map
        (fun l => l.map (fun t => t.url)) =
      some [some "https://www.youtube.com/watch?v=AAA".data,
            some "https://www.youtube.com/watch?v=BBB".data]) ∧
    (load_urls_from_text_file "# only\n\n// comments".data =
      .error ("No valid YouTube URLs found in file".data)) ∧
    (∀ content, load_urls_from_text_file content =
        .error ("No valid YouTube URLs found in file".data) ↔
      processUrlLines 1 [] (splitOnChar '\n' (pyStrip content)) = []) ∧
    (∀ content l, load_urls_from_text_file content = .ok l → l ≠ []) := by
  refine ⟨by decide, by decide, by decide, fun content => ?_, fun content l hl => ?_⟩
  · unfold load_urls_from_text_file
    by_cases h : processUrlLines 1 [] (splitOnChar '\n' (pyStrip content)) = []
    · simp [h]
    · simp [h]
  · unfold load_urls_from_text_file at hl
    by_cases h : processUrlLines 1 [] (splitOnChar '\n' (pyStrip content)) = []
    · rw [if_pos h] at hl
      exact absurd hl (by simp)
    · rw [if_neg h] at hl
      injection hl with h2
      rw [← h2]
      exact h

/-- C8 (witness): the zero-valid-items direction of the failure
characterisation, at a file of comments only. -/
theorem c8_url_list_loading_witness :
    processUrlLines 1 [] (splitOnChar '\n' (pyStrip "# only\n\n// comments".data)) = [] :=
  (c8_url_list_loading.2.2.2.1 "# only\n\n// comments".data).mp (by decide)

/-! ## C10: URL normalisation -/

theorem all_mem_of_all {p : Char → Bool} {l : List Char} (h : l.all p = true) :
    ∀ c ∈ l, p c = true :=
  List.all_eq_true.mp h

theorem dropWhile_head_false (p : Char → Bool) (l : List Char)
    (h : ∀ c ∈ l, p c = false) : l.dropWhile p = l := by
  cases l with
  | nil => rfl
  | cons c t =>
    rw [List.dropWhile_cons, h c (List.mem_cons_self c t)]
    simp

theorem pyStrip_eq_self (l : List Char) (h : ∀ c ∈ l, isPyWs c = false) :
    pyStrip l = l := by
  unfold pyStrip
  rw [dropWhile_head_false _ l h,
      dropWhile_head_false _ l.reverse (fun c hc => h c (List.mem_reverse.mp hc))]
  exact List.reverse_reverse l

theorem idChar_no_ws : ∀ c : Char, idChar c = true → isPyWs c = false := by
  intro c h
  by_contra h2
  rw [Bool.not_eq_false] at h2
  have h4 : c = ' ' ∨ c = '\t' ∨ c = '\n' ∨ c = '\x0d' ∨ c = '\x0b' ∨ c = '\x0c' := by
    simp only [isPyWs, Bool.or_eq_true, decide_eq_true_eq] at h2
    tauto
  rcases h4 with rfl | rfl | rfl | rfl | rfl | rfl <;> exact absurd h (by decide)

theorem ciStarts_append_self :
    ∀ (l rest : List Char), (∀ c ∈ l, pyLower c = c) → ciStarts l (l ++ rest) = true := by
  intro l
  induction l with
  | nil => intro rest _; rfl
  | cons c t ih =>
    intro rest h
    rw [List.cons_append]
    simp only [ciStarts]
    rw [h c (List.mem_cons_self c t)]
    simp [ih rest (fun x hx => h x (List.mem_cons_of_mem c hx))]

theorem takeWhile_all_true (p : Char → Bool) :
    ∀ l : List Char, (∀ c ∈ l, p c = true) → l.takeWhile p = l := by
  intro l
  induction l with
  | nil => intro _; rfl
  | cons c t ih =>
    intro h
    rw [List.takeWhile_cons, h c (List.mem_cons_self c t)]
    simp [ih (fun x hx => h x (List.mem_cons_of_mem c hx))]

theorem mem_takeWhile_p (p : Char → Bool) :
    ∀ (l : List Char) (c : Char), c ∈ l.takeWhile p → p c = true := by
  intro l
  induction l with
  | nil => intro c hc; simp [List.takeWhile] at hc
  | cons a t ih =>
    intro c hc
    rw [List.takeWhile_cons] at hc
    by_cases hp : p a = true
    · rw [if_pos hp] at hc
      rcases List.mem_cons.mp hc with rfl | h2
      · exact hp
      · exact ih c h2
    · rw [if_neg hp] at hc
      simp at hc

theorem captureAfterCore_cons (core : List Char) (c : Char) (rest : List Char) :
    captureAfterCore core (c :: rest) =
      if ciStarts core (c :: rest) then
        match (c :: rest).drop core.length with
        | [] => captureAfterCore core rest
        | d :: ds => if idChar d then some (List.takeWhile idChar (d :: ds))
                     else captureAfterCore core rest
      else captureAfterCore core rest := rfl

theorem capSkip_watch (c : Char) (hs2 : List Char)
    (hne : (pyLower c == 'y') = false) :
    captureAfterCore WATCH_CORE (c :: hs2) = captureAfterCore WATCH_CORE hs2 := by
  rw [show WATCH_CORE = 'y' :: "outube.com/watch?v=".data from rfl]
  simp [captureAfterCore, ciStarts, hne]

theorem capHit_watch (d : Char) (ds : List Char) (hd : idChar d = true)
    (hall : ∀ c ∈ ds, idChar c = true) :
    captureAfterCore WATCH_CORE (WATCH_CORE ++ d :: ds) = some (d :: ds) := by
  have hsplit : WATCH_CORE ++ d :: ds =
      'y' :: ("outube.com/watch?v=".data ++ d :: ds) := rfl
  have hci2 : ciStarts WATCH_CORE ('y' :: ("outube.com/watch?v=".data ++ d :: ds))
      = true := by
    have hlow : ∀ c ∈ WATCH_CORE, pyLower c = c := by
      intro c hc
      have := all_mem_of_all
        (p := fun c => pyLower c == c) (l := WATCH_CORE) (by decide) c hc
      simpa using this
    have h := ciStarts_append_self WATCH_CORE (d :: ds) hlow
    rwa [hsplit] at h
  have hdrop2 : ('y' :: ("outube.com/watch?v=".data ++ d :: ds)).drop
      WATCH_CORE.length = d :: ds := by
    rw [← hsplit]
    exact List.drop_left WATCH_CORE (d :: ds)
  rw [hsplit, captureAfterCore_cons, if_pos hci2, hdrop2]
  show (if idChar d = true then some (List.takeWhile idChar (d :: ds))
        else captureAfterCore WATCH_CORE ("outube.com/watch?v=".data ++ d :: ds)) =
    some (d :: ds)
  rw [if_pos hd]
  rw [takeWhile_all_true idChar (d :: ds) (fun c hc => by
    rcases List.mem_cons.mp hc with rfl | h2
    · exact hd
    · exact hall c h2)]

theorem cap_watch_canonical (d : Char) (ds : List Char) (hd : idChar d = true)
    (hall : ∀ c ∈ ds, idChar c = true) :
    captureAfterCore WATCH_CORE (WATCH_PRE ++ d :: ds) = some (d :: ds) := by
  have h1 : WATCH_PRE ++ d :: ds =
      'h' :: 't' :: 't' :: 'p' :: 's' :: ':' :: '/' :: '/' :: 'w' :: 'w' :: 'w' :: '.' ::
        (WATCH_CORE ++ d :: ds) := rfl
  rw [h1]
  rw [capSkip_watch 'h' _ (by decide)]
  rw [capSkip_watch 't' _ (by decide)]
  rw [capSkip_watch 't' _ (by decide)]
  rw [capSkip_watch 'p' _ (by decide)]
  rw [capSkip_watch 's' _ (by decide)]
  rw [capSkip_watch ':' _ (by decide)]
  rw [capSkip_watch '/' _ (by decide)]
  rw [capSkip_watch '/' _ (by decide)]
  rw [capSkip_watch 'w' _ (by decide)]
  rw [capSkip_watch 'w' _ (by decide)]
  rw [capSkip_watch 'w' _ (by decide)]
  rw [capSkip_watch '.' _ (by decide)]
  exact capHit_watch d ds hd hall

theorem captureAfterCore_shape (core : List Char) :
    ∀ (hay vid : List Char), captureAfterCore core hay = some vid →
      vid ≠ [] ∧ ∀ c ∈ vid, idChar c = true := by
  intro hay
  induction hay with
  | nil => intro vid h; exact absurd h (by simp [captureAfterCore])
  | cons c rest ih =>
    intro vid h
    unfold captureAfterCore at h
    split at h
    · split at h
      · exact ih vid h
      · split at h
        · rename_i e es _ he
          injection h with h2
          constructor
          · rw [← h2, List.takeWhile_cons, he]
            simp
          · intro x hx
            rw [← h2] at hx
            exact mem_takeWhile_p idChar (e :: es) x hx
        · exact ih vid h
    · exact ih vid h

theorem extract_video_id_shape :
    ∀ (s vid : List Char), extract_video_id s = some vid →
      vid ≠ [] ∧ ∀ c ∈ vid, idChar c = true := by
  intro s vid h
  unfold extract_video_id at h
  obtain ⟨core, _, hc⟩ := List.exists_of_findSome?_eq_some h
  exact captureAfterCore_shape core _ vid hc

theorem extract_canonical (vid : List Char) (hne : vid ≠ [])
    (hall : ∀ c ∈ vid, idChar c = true) :
    extract_video_id (WATCH_PRE ++ vid) = some vid := by
  obtain ⟨d, ds, rfl⟩ := List.exists_cons_of_ne_nil hne
  unfold extract_video_id
  have hstrip : pyStrip (WATCH_PRE ++ d :: ds) = WATCH_PRE ++ d :: ds := by
    apply pyStrip_eq_self
    intro c hc
    rcases List.mem_append.mp hc with h1 | h1
    · exact all_mem_of_all (p := fun c => !isPyWs c) (l := WATCH_PRE) (by decide) c h1
        |> (by simp : ((!isPyWs c) = true) → isPyWs c = false)
    · exact idChar_no_ws c (hall c h1)
  rw [hstrip]
  have hcap := cap_watch_canonical d ds (hall d (List.mem_cons_self d ds))
    (fun c hc => hall c (List.mem_cons_of_mem d hc))
  simp [PATTERN_CORES, List.findSome?_cons, hcap]

/-- C10: each recognised URL shape (watch, short link, playlist, embed,
mobile watch) normalises to the canonical `https://www.youtube.com/watch?v=`
form keyed by the first matching pattern's capture (a playlist URL collapses
to a watch-shaped URL keyed by its playlist identifier); unmatched strings
normalise to `none`; and normalisation is idempotent on its own output. -/
theorem c10_normalize_canonical_idempotent :
    (normalize_youtube_url "https://youtu.be/dQw4w9WgXcQ".data =
      some "https://www.youtube.com/watch?v=dQw4w9WgXcQ".data) ∧
    (normalize_youtube_url "https://www.youtube.com/playlist?list=PL123".data =
      some "https://www.youtube.com/watch?v=PL123".data) ∧
    (normalize_youtube_url "https://www.youtube.com/embed/EE9".data =
      some "https://www.youtube.com/watch?v=EE9".data) ∧
    (normalize_youtube_url "https://m.youtube.com/watch?v=abc".data =
      some "https://www.youtube.com/watch?v=abc".data) ∧
    (normalize_youtube_url "not a url".data = none) ∧
    (∀ s vid, extract_video_id s = some vid →
      normalize_youtube_url s = some (WATCH_PRE ++ vid)) ∧
    (∀ s, extract_video_id s = none → normalize_youtube_url s = none) ∧
    (∀ s out, normalize_youtube_url s = some out →
      normalize_youtube_url out = some out) := by
  refine ⟨by decide, by decide, by decide, by decide, by decide, ?_, ?_, ?_⟩
  · intro s vid h
    simp [normalize_youtube_url, h]
  · intro s h
    simp [normalize_youtube_url, h]
  · intro s out h
    unfold normalize_youtube_url at h
    cases hvid : extract_video_id s with
    | none => rw [hvid] at h; exact absurd h (by simp)
    | some vid =>
      rw [hvid] at h
      injection h with h2
      obtain ⟨hne, hall⟩ := extract_video_id_shape s vid hvid
      rw [← h2]
      unfold normalize_youtube_url
      rw [extract_canonical vid hne hall]

/-- C10 (witness): the idempotence clause applied to the normalisation of a
short-link URL. -/
theorem c10_normalize_canonical_idempotent_witness :
    normalize_youtube_url "https://www.youtube.com/watch?v=dQw4w9WgXcQ".data =
      some "https://www.youtube.com/watch?v=dQw4w9WgXcQ".data :=
  c10_normalize_canonical_idempotent.2.2.2.2.2.2.2
    "https://youtu.be/dQw4w9WgXcQ".data
    "https://www.youtube.com/watch?v=dQw4w9WgXcQ".data (by decide)

end MusicDL
